import Mathlib

/-!
Shallow embedding of the YouTube channel-tracking plugin
(src/pystargazer/plugins/youtube.py).

Modelling conventions:
* Python `datetime.datetime` values are modelled as `Int` epoch seconds; the
  `datetime.timestamp`/`fromtimestamp` conversions in `Video.dump`/`Video.load`
  become the identity on the numeric value.  The walrus-`if` truthiness tests
  in those functions are kept: a datetime is always truthy (only `None` is
  falsy), while a numeric timestamp of `0` is falsy and is therefore loaded
  back as `None`.
* The module-level mutable globals `channel_list`, `read_list` and the
  apscheduler job store are gathered into an explicit state record `St`;
  `channel_list` (a python dict) is an association list, the scheduler's job
  store is the list of job id strings.
* Network effects are oracles passed as arguments: the outcome of
  `query_video` for one call is a `QueryResult` value, and `query_video`'s
  in-place mutation of its `Video` argument becomes the pure `applyQuery`.
* Python exceptions escaping a handler are modelled by `PostResult.exception`
  (Starlette turns them into a 500 error response, not a success); functions
  whose exceptions propagate to their caller return `Except String`.
-/

set_option maxHeartbeats 1600000

deriving instance DecidableEq for Except

namespace Pystargazer

/-- `ResourceType` enum of the plugin. -/
inductive ResourceType where
  | VIDEO
  | BROADCAST
  deriving DecidableEq, Repr

/-- `YoutubeEventType` enum of the plugin. -/
inductive YoutubeEventType where
  | PUBLISH
  | REMINDER
  | SCHEDULE
  | LIVE
  deriving DecidableEq, Repr

/-- The `Video` dataclass.  Field defaults mirror the dataclass defaults
(`type=None`, `description=""`, `thumbnail=""`, start times `None`). -/
structure Video where
  video_id : String
  title : String
  link : String
  type : Option ResourceType := none
  description : String := ""
  thumbnail : Option String := some ""
  scheduled_start_time : Option Int := none
  actual_start_time : Option Int := none
  deriving DecidableEq, Repr

/-- The `YoutubeEvent` dataclass.  The `type` annotation in the source is
`ResourceType`, but at runtime the constructor is also reached with
`video.type` values that are `Optional`, so the field is an `Option`. -/
structure YoutubeEvent where
  type : Option ResourceType
  event : YoutubeEventType
  channel : String
  video : Video
  deriving DecidableEq, Repr

/-- `YoutubeEvent.__post_init__`: constructing a broadcast event whose video
has no `scheduled_start_time` raises `ValueError`. -/
def mkYoutubeEvent (t : Option ResourceType) (e : YoutubeEventType) (channel : String)
    (v : Video) : Except String YoutubeEvent :=
  if t = some ResourceType.BROADCAST ∧ v.scheduled_start_time = none then
    .error "Missing field(s): scheduled_start_time in video."
  else
    .ok { type := t, event := e, channel := channel, video := v }

/-- The dict `channel_list : Dict[str, List[Video]]` as an association list. -/
abbrev CL := List (String × List Video)

/-- Dict key lookup (first matching key). -/
def lookupCL : CL → String → Option (List Video)
  | [], _ => none
  | (c, vs) :: t, k => if c = k then some vs else lookupCL t k

/-- Replace the value stored under a key (used for the in-place list mutations
`channel_list[channel_id].remove/append`). -/
def assocSet : CL → String → List Video → CL
  | [], _, _ => []
  | (c, vs) :: t, k, nvs => if c = k then (c, nvs) :: t else (c, vs) :: assocSet t k nvs

/-- The apscheduler job id `f"reminder_{channel_id}_{video_id}"`. -/
def jobIdOf (channel_id video_id : String) : String :=
  "reminder_" ++ channel_id ++ "_" ++ video_id

/-- `scheduler.add_job(..., id=jid)`: apscheduler refuses a duplicate job id
(`ConflictingIdError`). -/
def schedAddJob (jobs : List String) (jid : String) : Except String (List String) :=
  if jobs.contains jid then .error "ConflictingIdError" else .ok (jobs ++ [jid])

/-- The module state: the tracked-channel map, the published-video dedup list
`read_list`, and the scheduler's reminder-job store. -/
structure St where
  channel_list : CL
  read_list : List Video
  jobs : List String
  deriving DecidableEq, Repr

/-- Outcome of one `query_video` call: `failure` is an empty / item-less API
response (the function returns `False`); `success` carries the optional
`snippet` (description, resolved standard-thumbnail url) and the optional
`liveStreamingDetails` (scheduledStartTime, actualStartTime). -/
inductive QueryResult where
  | failure
  | success (snippet : Option (String × Option String))
      (streaming : Option (Option Int × Option Int))
  deriving DecidableEq, Repr

/-- `query_video`'s in-place update of its argument, lines 195-218: on
success the snippet (when present) sets description (with the trailing
" ..." marker) and thumbnail; when `liveStreamingDetails` is present the
video is classified BROADCAST and the start times are overwritten only when
present in the response (walrus-`if`); otherwise it is classified VIDEO. -/
def applyQuery (video : Video) (r : QueryResult) : Bool × Video :=
  match r with
  | .failure => (false, video)
  | .success snippet streaming =>
    let v1 := match snippet with
      | some (desc, thumb) => { video with description := desc ++ " ...", thumbnail := thumb }
      | none => video
    let v2 := match streaming with
      | some (sch, act) =>
        { v1 with
          type := some ResourceType.BROADCAST
          scheduled_start_time := match sch with
            | some ts => some ts
            | none => v1.scheduled_start_time
          actual_start_time := match act with
            | some ts => some ts
            | none => v1.actual_start_time }
      | none => { v1 with type := some ResourceType.VIDEO }
    (true, v2)

/-- One parsed webhook notification entry: `(yt_videoid, title, link,
yt_channelid)` plus whether the raw body contains the "deleted-entry"
marker. -/
structure Notification where
  video_id : String
  title : String
  link : String
  channel_id : String
  deleted : Bool := false
  deriving DecidableEq, Repr

/-- Outcome of a webhook POST: `response` is the empty 200 success
`Response()`; `exception` is an uncaught python exception (Starlette answers
with a 500 error, and any state mutated before the raise stays mutated). -/
inductive PostResult where
  | response
  | exception (msg : String)
  deriving DecidableEq, Repr

/-- `Video(video_id=..., title=..., link=...)` built from the feed entry. -/
def mkVideoFromFeed (n : Notification) : Video :=
  { video_id := n.video_id, title := n.title, link := n.link }

/-- `WebsubEndpoint.post` (lines 282-355), the push-ingestion path, with the
result of the single `query_video` call passed as the oracle `q`.  Returns
the state after the call, the `YoutubeEvent`s handed to
`send_youtube_event`, and the HTTP outcome.  Note the duplicate-id lookup
`channel_list[channel_id]` raises `KeyError` for an untracked channel (only
`StopIteration` is caught). -/
def ingest (st : St) (n : Notification) (q : QueryResult) : St × List YoutubeEvent × PostResult :=
  if n.deleted then (st, [], .response) else
  match lookupCL st.channel_list n.channel_id with
  | none => (st, [], .exception "KeyError")
  | some vs =>
    let feed_video := mkVideoFromFeed n
    let old_video := vs.find? (fun w => feed_video.video_id == w.video_id)
    match applyQuery feed_video q with
    | (false, _) => (st, [], .response)
    | (true, video) =>
      let dup : Bool := match old_video with
        | some o => o.title == video.title && o.scheduled_start_time == video.scheduled_start_time
        | none => false
      if dup then (st, [], .response)
      else if video.type = some ResourceType.VIDEO then
        match st.read_list.find? (fun w => video.video_id == w.video_id) with
        | some _ => (st, [], .response)
        | none =>
          ({ st with read_list := st.read_list ++ [video] },
           [{ type := video.type, event := .PUBLISH, channel := n.channel_id, video := video }],
           .response)
      else if video.type = some ResourceType.BROADCAST ∧ video.actual_start_time = none then
        if video.scheduled_start_time = none then (st, [], .response)
        else
          let vs1 := match old_video with
            | some o => vs.erase o
            | none => vs
          let cl2 := assocSet st.channel_list n.channel_id (vs1 ++ [video])
          let jid := jobIdOf n.channel_id video.video_id
          let jobs1 := if st.jobs.contains jid then st.jobs.erase jid else st.jobs
          match schedAddJob jobs1 jid with
          | .error e => ({ st with channel_list := cl2, jobs := jobs1 }, [], .exception e)
          | .ok jobs2 =>
            ({ st with channel_list := cl2, jobs := jobs2 },
             [{ type := video.type, event := .SCHEDULE, channel := n.channel_id, video := video }],
             .response)
      else (st, [], .response)

/-- Run a sequence of webhook deliveries; each carries its `query_video`
oracle.  An uncaught exception only aborts that one request (the process,
and the state as mutated so far, survive). -/
def runIngests (st : St) : List (Notification × QueryResult) → St × List YoutubeEvent
  | [] => (st, [])
  | (n, q) :: rest =>
    let r := ingest st n q
    let r2 := runIngests r.1 rest
    (r2.1, r.2.1 ++ r2.2)

/-- Processing of one `(channel_id, video)` pair inside `tick` (lines
381-396): returns the (in-place mutated) video, whether it was appended to
`remove_list`, and the LIVE events emitted. -/
def tickVideo (now : Int) (q : String → QueryResult) (channel_id : String) (video : Video) :
    Video × Bool × List YoutubeEvent :=
  match video.scheduled_start_time with
  | none => (video, true, [])
  | some sched =>
    if now - sched > -600 then
      match applyQuery video (q video.video_id) with
      | (ok, v) =>
        match v.actual_start_time with
        | some actual =>
          (v, true,
           if now - actual < 10800 then
             [{ type := some ResourceType.BROADCAST, event := .LIVE,
                channel := channel_id, video := v }]
           else [])
        | none => (v, !ok, [])
    else (video, false, [])

/-- One channel's share of `tick`: scan (mutating each video in place,
collecting `remove_list` entries and LIVE events), then apply the removals
with `list.remove` (first element equal to the marked one). -/
def tickChannel (now : Int) (q : String → QueryResult) (channel_id : String)
    (videos : List Video) : List Video × List YoutubeEvent :=
  let results := videos.map (tickVideo now q channel_id)
  let updated := results.map (fun r => r.1)
  let removeL := (results.filter (fun r => r.2.1)).map (fun r => r.1)
  (removeL.foldl (fun l v => l.erase v) updated, results.flatMap (fun r => r.2.2))

/-- `tick` (lines 377-398) on the tracked-channel map, with the single
`now` read and a per-video `query_video` oracle. -/
def tickCL (cl : CL) (now : Int) (q : String → QueryResult) : CL × List YoutubeEvent :=
  ((cl.map fun p => (p.1, (tickChannel now q p.1 p.2).1)),
   cl.flatMap fun p => (tickChannel now q p.1 p.2).2)

/-- `tick` as an operation on the whole module state (`read_list` and the
job store are untouched). -/
def tick (st : St) (now : Int) (q : String → QueryResult) : St × List YoutubeEvent :=
  let r := tickCL st.channel_list now q
  ({ st with channel_list := r.1 }, r.2)

/-- Run a sequence of ticks, each with its own `now` and query oracle. -/
def runTicks (cl : CL) : List (Int × (String → QueryResult)) → CL × List YoutubeEvent
  | [] => (cl, [])
  | (now, q) :: rest =>
    let r := tickCL cl now q
    let r2 := runTicks r.1 rest
    (r2.1, r.2 ++ r2.2)

/-- `subscribe` (lines 236-242): `ValueError("Conflict channel id.")` when
the channel is already tracked, otherwise register an empty pending list
(the hub request itself is a network effect outside the state). -/
def subscribe (st : St) (channel_id : String) : Except String St :=
  if (lookupCL st.channel_list channel_id).isSome then .error "Conflict channel id."
  else
    let cl := if (lookupCL st.channel_list channel_id).isSome then st.channel_list
              else st.channel_list ++ [(channel_id, [])]
    .ok { st with channel_list := cl }

/-- `unsubscribe` (lines 245-258): `ValueError("Not found.")` when the
channel is untracked; otherwise remove every pending video's reminder job
(`JobLookupError` swallowed), and pop the tracking entry when `pop`. -/
def unsubscribe (st : St) (channel_id : String) (pop : Bool) : Except String St :=
  match lookupCL st.channel_list channel_id with
  | none => .error "Not found."
  | some vs =>
    let jobs1 := vs.foldl
      (fun js v =>
        let jid := jobIdOf channel_id v.video_id
        if js.contains jid then js.erase jid else js)
      st.jobs
    let cl1 := if pop then st.channel_list.filter (fun p => !(p.1 == channel_id))
               else st.channel_list
    .ok { st with channel_list := cl1, jobs := jobs1 }

/-- Response of the verification handshake `WebsubEndpoint.get`. -/
inductive VerifyResponse where
  | challenge (body : String)
  | notFound
  deriving DecidableEq, Repr

/-- `WebsubEndpoint.get` (lines 264-279): accept (echoing the challenge) iff
(subscribe and tracked) or (unsubscribe and untracked), else 404. -/
def websubGet (cl : CL) (mode challenge_param channel_id : String) : VerifyResponse :=
  if (mode = "subscribe" ∧ (lookupCL cl channel_id).isSome) ∨
      (mode = "unsubscribe" ∧ (lookupCL cl channel_id).isNone) then
    .challenge challenge_param
  else .notFound

/-- The serialized form of one `Video` produced by `Video.dump` (`asdict`
with the enum name and epoch timestamps). -/
structure VideoDump where
  video_id : String
  title : String
  link : String
  type : String
  description : String
  thumbnail : Option String
  scheduled_start_time : Option Int
  actual_start_time : Option Int
  deriving DecidableEq, Repr

/-- `ResourceType.name`. -/
def resourceTypeName : ResourceType → String
  | .VIDEO => "VIDEO"
  | .BROADCAST => "BROADCAST"

/-- `datetime.timestamp(dt) if dt else None`: a datetime is truthy whenever
it is not `None`, so this is the identity on the optional epoch value. -/
def dumpTs : Option Int → Option Int
  | some dt => some dt
  | none => none

/-- `datetime.fromtimestamp(ts) if ts else None`: the stored value is a
number here, so a timestamp of exactly `0` is falsy and loads as `None`. -/
def loadTs : Option Int → Option Int
  | some ts => if ts = 0 then none else some ts
  | none => none

/-- `Video.dump` (lines 50-56).  `self.type.name` raises `AttributeError`
when `type` is `None`. -/
def Video.dump (v : Video) : Except String VideoDump :=
  match v.type with
  | none => .error "AttributeError"
  | some t =>
    .ok { video_id := v.video_id, title := v.title, link := v.link,
          type := resourceTypeName t, description := v.description,
          thumbnail := v.thumbnail,
          scheduled_start_time := dumpTs v.scheduled_start_time,
          actual_start_time := dumpTs v.actual_start_time }

/-- `Video.load` (lines 58-66).  `ResourceType[state_dict["type"]]` raises
`KeyError` on an unknown name. -/
def Video.load (d : VideoDump) : Except String Video :=
  (if d.type = "VIDEO" then Except.ok ResourceType.VIDEO
   else if d.type = "BROADCAST" then Except.ok ResourceType.BROADCAST
   else Except.error "KeyError").map fun t =>
    { video_id := d.video_id, title := d.title, link := d.link, type := some t,
      description := d.description, thumbnail := d.thumbnail,
      scheduled_start_time := loadTs d.scheduled_start_time,
      actual_start_time := loadTs d.actual_start_time }

/-- `dump_state` (lines 451-456): serialize the tracked-channel map and the
published-video list into the two persisted records. -/
def dump_state (st : St) : Except String (List (String × List VideoDump) × List VideoDump) := do
  let channel_state ← st.channel_list.mapM (fun p => do
    let ds ← p.2.mapM Video.dump
    pure (p.1, ds))
  let read_state ← st.read_list.mapM Video.dump
  pure (channel_state, read_state)

/-- The inner loop of `load_state` (lines 430-446) over one channel's saved
videos.  Per video: `Video.load` (may raise), re-query (return value
ignored), and when `actual_start_time` is still absent: build the reminder
event (may raise `ValueError`), read `scheduled_start_time.year` for the
job trigger (`AttributeError` when `None`), `scheduler.add_job`, and
`channel_list[channel].append(video)` - which raises `KeyError` when the
channel key is not already in the (fresh, empty at startup) dict. -/
def loadChannelVideos (q : String → QueryResult) (channel : String) :
    St → List VideoDump → St × PostResult
  | st, [] => (st, .response)
  | st, d :: rest =>
    match Video.load d with
    | .error e => (st, .exception e)
    | .ok v0 =>
      let v := (applyQuery v0 (q v0.video_id)).2
      if v.actual_start_time = none then
        match mkYoutubeEvent v.type .REMINDER channel v with
        | .error e => (st, .exception e)
        | .ok _ =>
          match v.scheduled_start_time with
          | none => (st, .exception "AttributeError")
          | some _ =>
            match schedAddJob st.jobs (jobIdOf channel v.video_id) with
            | .error e => (st, .exception e)
            | .ok jobs1 =>
              match lookupCL st.channel_list channel with
              | none => ({ st with jobs := jobs1 }, .exception "KeyError")
              | some vs =>
                loadChannelVideos q channel
                  { st with jobs := jobs1,
                            channel_list := assocSet st.channel_list channel (vs ++ [v]) }
                  rest
      else loadChannelVideos q channel st rest

/-- The outer loop of `load_state` over the saved channel map. -/
def loadChannels (q : String → QueryResult) :
    St → List (String × List VideoDump) → St × PostResult
  | st, [] => (st, .response)
  | st, (channel, ds) :: rest =>
    match loadChannelVideos q channel st ds with
    | (st1, .response) => loadChannels q st1 rest
    | (st1, .exception e) => (st1, .exception e)

/-- `load_state` (lines 416-448) applied to the two persisted records (the
absent-record defaults of lines 419-428 give the empty map / empty list),
with the per-video re-query oracle `q`.  An exception leaves the state as
mutated so far and aborts the restore. -/
def load_state (st : St) (channel_state : List (String × List VideoDump))
    (read_videos : List VideoDump) (q : String → QueryResult) : St × PostResult :=
  match loadChannels q st channel_state with
  | (st1, .exception e) => (st1, .exception e)
  | (st1, .response) =>
    match read_videos.mapM Video.load with
    | .error e => (st1, .exception e)
    | .ok videos => ({ st1 with read_list := videos }, .response)

/-- The per-category disable flags read through `get_option`. -/
structure EventOptions where
  video_disabled : Bool
  live_disabled : Bool
  reminder_disabled : Bool
  schedule_disabled : Bool
  deriving DecidableEq, Repr

/-- Structured form of the bus `Event` built by `send_youtube_event`; the
display-formatted start times are kept as optional payload fields. -/
structure BusEvent where
  name : String
  vtuber_key : String
  scheduled_print : Option String
  actual_print : Option String
  deriving DecidableEq, Repr

/-- `strftime("%Y-%m-%d %I:%M%p (CST)")` on an epoch value, modelled as an
abstract rendering to a string. -/
def fmtTime (t : Int) : String := toString t

/-- `send_youtube_event` (lines 137-179): translate a `YoutubeEvent` into
the outbound bus event (or none, when the category is disabled or no branch
matches).  In the broadcast branch the scheduled-time string is formatted
before the event kind is examined, so a missing `scheduled_start_time`
raises `AttributeError` there (and a missing `actual_start_time` does in the
LIVE branch). -/
def sendYoutubeEvent (opts : EventOptions) (vtuber_key : String) (e : YoutubeEvent) :
    Except String (Option BusEvent) :=
  if e.type = some ResourceType.VIDEO ∧ opts.video_disabled = false then
    .ok (some { name := "youtube_video", vtuber_key := vtuber_key,
                scheduled_print := none, actual_print := none })
  else if e.type = some ResourceType.BROADCAST then
    match e.video.scheduled_start_time with
    | none => .error "AttributeError"
    | some sched =>
      if e.event = .LIVE ∧ opts.live_disabled = false then
        match e.video.actual_start_time with
        | none => .error "AttributeError"
        | some act =>
          .ok (some { name := "youtube_broadcast_live", vtuber_key := vtuber_key,
                      scheduled_print := some (fmtTime sched),
                      actual_print := some (fmtTime act) })
      else if e.event = .REMINDER ∧ opts.reminder_disabled = false then
        .ok (some { name := "youtube_broadcast_reminder", vtuber_key := vtuber_key,
                    scheduled_print := some (fmtTime sched), actual_print := none })
      else if e.event = .SCHEDULE ∧ opts.schedule_disabled = false then
        .ok (some { name := "youtube_broadcast_schedule", vtuber_key := vtuber_key,
                    scheduled_print := some (fmtTime sched), actual_print := none })
      else .ok none
  else .ok none

/-! ### Derived predicates used by the claims -/

/-- The video ids in the published-video dedup list. -/
def readIds (st : St) : List String := st.read_list.map Video.video_id

/-- A snapshot that should carry a reminder job: known `scheduled_start_time`
and no `actual_start_time`. -/
def pendingVideoB (v : Video) : Bool :=
  v.scheduled_start_time.isSome && v.actual_start_time.isNone

/-- The reminder-job ids generated by one channel's pending list. -/
def chanKeys (channel_id : String) (vs : List Video) : List String :=
  (vs.filter pendingVideoB).map (fun v => jobIdOf channel_id v.video_id)

/-- All reminder-job ids generated by the tracked-channel map. -/
def pendingKeysCL : CL → List String
  | [] => []
  | (c, vs) :: t => chanKeys c vs ++ pendingKeysCL t

/-- The reminder-job invariant of the spec: a job id is armed iff some
pending snapshot in the tracked map generates it. -/
def reminderInvariant (st : St) : Prop :=
  (∀ j ∈ st.jobs, j ∈ pendingKeysCL st.channel_list) ∧
  (∀ j ∈ pendingKeysCL st.channel_list, j ∈ st.jobs)

instance (st : St) : Decidable (reminderInvariant st) := by
  unfold reminderInvariant
  infer_instance

/-- The video ids pending under a given channel key. -/
def pendingIdsCL (cl : CL) (channel_id : String) : List String :=
  (cl.filter (fun p => p.1 == channel_id)).flatMap (fun p => p.2.map Video.video_id)

/-- Well-formedness of the tracked map maintained by the plugin: dict keys
are unique, video ids are unique per channel, and every stored snapshot is
still awaiting its live transition (`actual_start_time` unset - both
insertion paths require this). -/
def WFcl (cl : CL) : Prop :=
  (cl.map Prod.fst).Nodup ∧
  ∀ p ∈ cl, ((p.2.map Video.video_id).Nodup ∧ ∀ v ∈ p.2, v.actual_start_time = none)

instance (cl : CL) : Decidable (WFcl cl) := by
  unfold WFcl
  infer_instance

/-- The LIVE events among `events` for one `(channel, video id)` key. -/
def liveFor (events : List YoutubeEvent) (channel_id video_id : String) : List YoutubeEvent :=
  events.filter (fun e =>
    e.event == YoutubeEventType.LIVE && e.channel == channel_id &&
      e.video.video_id == video_id)

/-- The PUBLISH events among `events` for one video id. -/
def publishFor (events : List YoutubeEvent) (video_id : String) : List YoutubeEvent :=
  events.filter (fun e =>
    e.event == YoutubeEventType.PUBLISH && e.video.video_id == video_id)

/-! ### Concrete sample values used by closed theorems -/

/-- A pending broadcast snapshot as the ingestion path stores it. -/
def sampleBroadcast : Video :=
  { video_id := "v", title := "t", link := "l", type := some ResourceType.BROADCAST,
    scheduled_start_time := some 1000 }

/-- A reachable module state: channel "c" tracked with `sampleBroadcast`
pending and its reminder job armed. -/
def sampleState : St :=
  { channel_list := [("c", [sampleBroadcast])], read_list := [],
    jobs := [jobIdOf "c" "v"] }

/-- The module state of a freshly started process (empty globals, empty job
store), in which `load_state` runs. -/
def bootState : St := { channel_list := [], read_list := [], jobs := [] }

/-- A webhook notification for an untracked channel. -/
def strayNotification : Notification :=
  { video_id := "v", title := "t", link := "l", channel_id := "c" }

/-! ### Helper lemmas -/

theorem lookupCL_append_self (l : CL) (c : String) (vs : List Video)
    (h : lookupCL l c = none) : lookupCL (l ++ [(c, vs)]) c = some vs := by
  induction l with
  | nil => simp [lookupCL]
  | cons p t ih =>
    by_cases hc : p.1 = c
    · simp only [lookupCL, hc, if_pos rfl] at h
      exact absurd h (by simp)
    · simp only [lookupCL, hc, ite_false, List.cons_append] at h ⊢
      simpa [lookupCL, hc] using ih h

theorem lookupCL_filter_out (l : CL) (c : String) :
    lookupCL (l.filter (fun p => !(p.1 == c))) c = none := by
  induction l with
  | nil => simp [lookupCL]
  | cons p t ih =>
    by_cases hc : p.1 = c
    · simpa [List.filter_cons, hc] using ih
    · simpa [List.filter_cons, hc, lookupCL] using ih

theorem applyQuery_video_id (v : Video) (q : QueryResult) :
    (applyQuery v q).2.video_id = v.video_id := by
  rcases q with _ | ⟨sn, str⟩
  · rfl
  · rcases sn with _ | ⟨d, th⟩ <;> rcases str with _ | ⟨sch, act⟩ <;> rfl

theorem applyQuery_title (v : Video) (q : QueryResult) :
    (applyQuery v q).2.title = v.title := by
  rcases q with _ | ⟨sn, str⟩
  · rfl
  · rcases sn with _ | ⟨d, th⟩ <;> rcases str with _ | ⟨sch, act⟩ <;> rfl

/-- Case analysis of one ingestion: either the published list is unchanged
and no PUBLISH event is emitted, or exactly one PUBLISH event is emitted for
a video id that was not yet published, and that video is appended. -/
theorem ingest_cases (st : St) (n : Notification) (q : QueryResult) :
    ((ingest st n q).1.read_list = st.read_list ∧
      ∀ e ∈ (ingest st n q).2.1, e.event ≠ YoutubeEventType.PUBLISH) ∨
    (∃ video,
      (ingest st n q).1.read_list = st.read_list ++ [video] ∧
      (ingest st n q).2.1 =
        [{ type := video.type, event := .PUBLISH, channel := n.channel_id,
           video := video }] ∧
      st.read_list.find? (fun w => video.video_id == w.video_id) = none) := by
  unfold ingest
  split
  · exact Or.inl ⟨rfl, by simp⟩
  split
  · exact Or.inl ⟨rfl, by simp⟩
  dsimp only
  rcases hA : applyQuery (mkVideoFromFeed n) q with ⟨ok, video⟩
  cases ok
  · exact Or.inl ⟨rfl, by simp⟩
  dsimp only
  split
  · exact Or.inl ⟨rfl, by simp⟩
  split
  · split
    · exact Or.inl ⟨rfl, by simp⟩
    · next hfind =>
      exact Or.inr ⟨video, by simp, rfl, hfind⟩
  split
  · split
    · exact Or.inl ⟨rfl, by simp⟩
    split
    · exact Or.inl ⟨rfl, by simp⟩
    · exact Or.inl ⟨rfl, by simp⟩
  · exact Or.inl ⟨rfl, by simp⟩

theorem publishFor_append (a b : List YoutubeEvent) (i : String) :
    publishFor (a ++ b) i = publishFor a i ++ publishFor b i :=
  List.filter_append a b

theorem readIds_mono_ingest (st : St) (n : Notification) (q : QueryResult) (i : String)
    (h : i ∈ readIds st) : i ∈ readIds (ingest st n q).1 := by
  rcases ingest_cases st n q with ⟨hr, _⟩ | ⟨v, hr, _, _⟩ <;>
    · unfold readIds at h ⊢
      rw [hr]
      simp_all

theorem publishFor_ingest_of_mem (st : St) (n : Notification) (q : QueryResult) (i : String)
    (h : i ∈ readIds st) : publishFor (ingest st n q).2.1 i = [] := by
  rcases ingest_cases st n q with ⟨_, he⟩ | ⟨v, _, hev, hfind⟩
  · refine List.filter_eq_nil_iff.mpr ?_
    intro e he'
    simp [he e he']
  · have hvi : v.video_id ≠ i := by
      rw [List.find?_eq_none] at hfind
      rintro rfl
      obtain ⟨w, hw, hwid⟩ : ∃ w ∈ st.read_list, w.video_id = v.video_id := by
        simpa [readIds] using h
      exact absurd (by simp [hwid]) (hfind w hw)
    rw [hev]
    simp [publishFor, hvi]

theorem publishFor_ingest_cases (st : St) (n : Notification) (q : QueryResult) (i : String) :
    publishFor (ingest st n q).2.1 i = [] ∨
    ((publishFor (ingest st n q).2.1 i).length = 1 ∧ i ∈ readIds (ingest st n q).1) := by
  rcases ingest_cases st n q with ⟨_, he⟩ | ⟨v, hr, hev, _⟩
  · refine Or.inl (List.filter_eq_nil_iff.mpr ?_)
    intro e he'
    simp [he e he']
  · by_cases hvi : v.video_id = i
    · refine Or.inr ⟨?_, ?_⟩
      · rw [hev]
        simp [publishFor, hvi]
      · unfold readIds
        rw [hr]
        simp [hvi]
    · refine Or.inl ?_
      rw [hev]
      simp [publishFor, hvi]

/-- Across a sequence of webhook deliveries, at most one PUBLISH is emitted
per video id, and none at all once the id is in the dedup list. -/
theorem publish_seq (i : String) (seq : List (Notification × QueryResult)) : ∀ (st : St),
    (i ∈ readIds st → publishFor (runIngests st seq).2 i = []) ∧
    (publishFor (runIngests st seq).2 i).length ≤ 1 := by
  induction seq with
  | nil =>
    intro st
    simp [runIngests, publishFor]
  | cons p rest ih =>
    intro st
    obtain ⟨n, q⟩ := p
    have hev : (runIngests st ((n, q) :: rest)).2 =
        (ingest st n q).2.1 ++ (runIngests (ingest st n q).1 rest).2 := rfl
    constructor
    · intro h
      rw [hev, publishFor_append, publishFor_ingest_of_mem st n q i h,
        (ih (ingest st n q).1).1 (readIds_mono_ingest st n q i h)]
      rfl
    · rw [hev, publishFor_append, List.length_append]
      rcases publishFor_ingest_cases st n q i with h0 | ⟨h1, hmem⟩
      · rw [h0]
        simpa using (ih (ingest st n q).1).2
      · rw [h1, (ih (ingest st n q).1).1 hmem]
        simp

/-- Claim C4: across any sequence of ingested notifications a PUBLISH event
is emitted at most once per video id; and an ingestion that resolves to a
PLAIN video (for a tracked channel, with no pending prior) emits PUBLISH iff
the id is not yet in the dedup list, adding it on emission. -/
theorem publish_at_most_once :
    (∀ (st : St) (seq : List (Notification × QueryResult)) (i : String),
      (publishFor (runIngests st seq).2 i).length ≤ 1) ∧
    (∀ (st : St) (n : Notification) (q : QueryResult) (vs : List Video),
      n.deleted = false →
      lookupCL st.channel_list n.channel_id = some vs →
      vs.find? (fun w => n.video_id == w.video_id) = none →
      (applyQuery (mkVideoFromFeed n) q).1 = true →
      (applyQuery (mkVideoFromFeed n) q).2.type = some ResourceType.VIDEO →
      ((publishFor (ingest st n q).2.1 n.video_id ≠ [] ↔ n.video_id ∉ readIds st) ∧
        n.video_id ∈ readIds (ingest st n q).1)) := by
  constructor
  · intro st seq i
    exact (publish_seq i seq st).2
  · intro st n q vs hd ht hfindold hq hv
    have hid : (applyQuery (mkVideoFromFeed n) q).2.video_id = n.video_id :=
      applyQuery_video_id (mkVideoFromFeed n) q
    have hsplit : applyQuery (mkVideoFromFeed n) q =
        ((applyQuery (mkVideoFromFeed n) q).1, (applyQuery (mkVideoFromFeed n) q).2) := rfl
    rw [hq] at hsplit
    unfold ingest
    rw [hd]
    simp only [Bool.false_eq_true, if_false]
    rw [ht]
    simp only [mkVideoFromFeed] at hsplit hfindold hid hv ⊢
    rw [hfindold, hsplit]
    dsimp only
    simp only [Bool.false_eq_true, if_false]
    rw [hv, if_pos rfl, hid]
    split
    · next w hw =>
      have hmem : n.video_id ∈ readIds st := by
        have h1 := List.find?_some hw
        have h2 := List.mem_of_find?_eq_some hw
        simp only [beq_iff_eq] at h1
        simp only [readIds, List.mem_map]
        exact ⟨w, h2, h1.symm⟩
      constructor
      · simp [publishFor, hmem]
      · exact hmem
    · next hw =>
      have hnmem : n.video_id ∉ readIds st := by
        rw [List.find?_eq_none] at hw
        intro hmem
        obtain ⟨w, hwmem, hwid⟩ : ∃ w ∈ st.read_list, w.video_id = n.video_id := by
          simpa [readIds] using hmem
        exact absurd (by simp [hwid]) (hw w hwmem)
      constructor
      · simp only [publishFor]
        simp [hid, hnmem]
      · simp [readIds, hid]

/-- Witness for C4: a fresh PLAIN video ingested into the sample state emits
its PUBLISH event. -/
theorem publish_at_most_once_witness :
    publishFor
        (ingest sampleState
          { video_id := "w", title := "t2", link := "l2", channel_id := "c" }
          (QueryResult.success none none)).2.1 "w" ≠ [] :=
  (publish_at_most_once.2 sampleState
      { video_id := "w", title := "t2", link := "l2", channel_id := "c" }
      (QueryResult.success none none) [sampleBroadcast]
      rfl rfl (by decide) (by decide) (by decide)).1.mpr (by decide)

theorem chanKeys_append (c : String) (l1 l2 : List Video) :
    chanKeys c (l1 ++ l2) = chanKeys c l1 ++ chanKeys c l2 := by
  simp [chanKeys, List.filter_append]

theorem mem_chanKeys {j c : String} {l : List Video} :
    j ∈ chanKeys c l ↔ ∃ w ∈ l, pendingVideoB w = true ∧ jobIdOf c w.video_id = j := by
  simp only [chanKeys, List.mem_map, List.mem_filter]
  constructor
  · rintro ⟨w, ⟨hw, hp⟩, hk⟩
    exact ⟨w, hw, hp, hk⟩
  · rintro ⟨w, hw, hp, hk⟩
    exact ⟨w, ⟨hw, hp⟩, hk⟩

theorem mem_chanKeys_erase {c j : String} {vs : List Video} {o : Video}
    (hj : pendingVideoB o = true → j ≠ jobIdOf c o.video_id) :
    (j ∈ chanKeys c (vs.erase o) ↔ j ∈ chanKeys c vs) := by
  constructor
  · intro h
    obtain ⟨w, hw, hp, hk⟩ := mem_chanKeys.mp h
    exact mem_chanKeys.mpr ⟨w, List.erase_subset _ _ hw, hp, hk⟩
  · intro h
    obtain ⟨w, hw, hp, hk⟩ := mem_chanKeys.mp h
    by_cases hwo : w = o
    · subst hwo
      exact absurd hk.symm (hj hp)
    · exact mem_chanKeys.mpr ⟨w, (List.mem_erase_of_ne hwo).mpr hw, hp, hk⟩

/-- Replacing the pending list of one channel key replaces exactly its own
contribution to the generated reminder-job ids. -/
theorem pendingKeysCL_assocSet (cl : CL) (c : String) (vs nvs : List Video)
    (h : lookupCL cl c = some vs) :
    ∃ pre post, pendingKeysCL cl = pre ++ (chanKeys c vs ++ post) ∧
      pendingKeysCL (assocSet cl c nvs) = pre ++ (chanKeys c nvs ++ post) := by
  induction cl with
  | nil => simp [lookupCL] at h
  | cons p t ih =>
    obtain ⟨c', vs'⟩ := p
    by_cases hc : c' = c
    · subst hc
      have hvs : vs' = vs := by simpa [lookupCL] using h
      subst hvs
      exact ⟨[], pendingKeysCL t, by simp [pendingKeysCL], by simp [assocSet, pendingKeysCL]⟩
    · have h' : lookupCL t c = some vs := by simpa [lookupCL, hc] using h
      obtain ⟨pre, post, h1, h2⟩ := ih h'
      refine ⟨chanKeys c' vs' ++ pre, post, ?_, ?_⟩
      · simp [pendingKeysCL, h1]
      · simp [assocSet, hc, pendingKeysCL, h2]

/-- Inserting a pending broadcast snapshot for `(c, video)` while replacing
the channel's pending list by `vs1 ++ [video]` and the job store by `jobs2`
preserves the reminder-job invariant, provided the replacement is neutral
away from the inserted key and the job store changed exactly at that key. -/
theorem broadcast_insert_preserves (st : St) (c : String) (vs vs1 : List Video)
    (video : Video) (jobs2 : List String)
    (hvs : lookupCL st.channel_list c = some vs)
    (hpend : pendingVideoB video = true)
    (hvs1 : ∀ j, j ≠ jobIdOf c video.video_id →
      (j ∈ chanKeys c vs1 ↔ j ∈ chanKeys c vs))
    (hjid : jobIdOf c video.video_id ∈ jobs2)
    (hjne : ∀ j, j ≠ jobIdOf c video.video_id → (j ∈ jobs2 ↔ j ∈ st.jobs)) :
    reminderInvariant st →
      reminderInvariant
        { st with channel_list := assocSet st.channel_list c (vs1 ++ [video]),
                  jobs := jobs2 } := by
  rintro ⟨h1, h2⟩
  obtain ⟨pre, post, hP, hP'⟩ :=
    pendingKeysCL_assocSet st.channel_list c vs (vs1 ++ [video]) hvs
  have hkey : jobIdOf c video.video_id ∈ chanKeys c (vs1 ++ [video]) :=
    mem_chanKeys.mpr ⟨video, by simp, hpend, rfl⟩
  constructor
  · intro j hj
    simp only [St.channel_list] at *
    rw [hP']
    by_cases hjk : j = jobIdOf c video.video_id
    · subst hjk
      simp [hkey]
    · have hjs : j ∈ pendingKeysCL st.channel_list := h1 j ((hjne j hjk).mp hj)
      rw [hP] at hjs
      rcases List.mem_append.mp hjs with hpre | hmid
      · simp [hpre]
      rcases List.mem_append.mp hmid with hmidl | hpost
      · have : j ∈ chanKeys c (vs1 ++ [video]) := by
          rw [chanKeys_append]
          exact List.mem_append.mpr (Or.inl ((hvs1 j hjk).mpr hmidl))
        simp [this]
      · simp [hpost]
  · intro j hj
    simp only [St.jobs] at *
    rw [hP'] at hj
    by_cases hjk : j = jobIdOf c video.video_id
    · subst hjk
      exact hjid
    · refine (hjne j hjk).mpr (h2 j ?_)
      rw [hP]
      rcases List.mem_append.mp hj with hpre | hmid
      · simp [hpre]
      rcases List.mem_append.mp hmid with hmidl | hpost
      · rw [chanKeys_append] at hmidl
        rcases List.mem_append.mp hmidl with hvs1m | hvid
        · have : j ∈ chanKeys c vs := (hvs1 j hjk).mp hvs1m
          simp [this]
        · obtain ⟨w, hw, _, hk⟩ := mem_chanKeys.mp hvid
          simp only [List.mem_singleton] at hw
          subst hw
          exact absurd hk.symm hjk
      · simp [hpost]

theorem contains_iff_mem {α : Type} [BEq α] [LawfulBEq α] {l : List α} {a : α} :
    l.contains a = true ↔ a ∈ l :=
  ⟨List.mem_of_elem_eq_true, List.elem_eq_true_of_mem⟩

/-- Membership in the job store after the cancel-then-rearm step, away from
the rearmed id, is unchanged. -/
theorem mem_rearm_iff {jobs : List String} {jid j : String} (hj : j ≠ jid) :
    (j ∈ (if jobs.contains jid = true then jobs.erase jid else jobs) ++ [jid] ↔
      j ∈ jobs) := by
  by_cases hc : jobs.contains jid = true
  · rw [if_pos hc]
    simp [List.mem_append, hj, List.mem_erase_of_ne hj]
  · rw [if_neg hc]
    simp [List.mem_append, hj]

theorem schedAddJob_ok {jobs jobs2 : List String} {jid : String}
    (h : schedAddJob jobs jid = .ok jobs2) : jid ∉ jobs ∧ jobs2 = jobs ++ [jid] := by
  unfold schedAddJob at h
  split at h
  · exact absurd h (by simp)
  · next hc =>
    refine ⟨fun hm => hc (contains_iff_mem.mpr hm), ?_⟩
    cases h
    rfl

theorem schedAddJob_error {jobs : List String} {jid e : String}
    (h : schedAddJob jobs jid = .error e) : jid ∈ jobs := by
  unfold schedAddJob at h
  split at h
  · next hc => exact contains_iff_mem.mp hc
  · exact absurd h (by simp)

/-- Membership in the job store after the cancel step, away from the
cancelled id, is unchanged. -/
theorem mem_cancel_iff {jobs : List String} {jid j : String} (hj : j ≠ jid) :
    (j ∈ (if jobs.contains jid = true then jobs.erase jid else jobs) ↔ j ∈ jobs) := by
  by_cases hc : jobs.contains jid = true
  · rw [if_pos hc]
    exact List.mem_erase_of_ne hj
  · rw [if_neg hc]

/-- The cancel step keeps the job store duplicate-free. -/
theorem nodup_cancel {jobs : List String} {jid : String} (h : jobs.Nodup) :
    (if jobs.contains jid = true then jobs.erase jid else jobs).Nodup := by
  by_cases hc : jobs.contains jid = true
  · rw [if_pos hc]
    exact h.erase _
  · rw [if_neg hc]
    exact h

/-- Cancel-then-rearm keeps the job store duplicate-free. -/
theorem nodup_rearm {jobs : List String} {jid : String} (h : jobs.Nodup) :
    ((if jobs.contains jid = true then jobs.erase jid else jobs) ++ [jid]).Nodup := by
  by_cases hc : jobs.contains jid = true
  · rw [if_pos hc]
    rw [List.nodup_append]
    refine ⟨h.erase jid, List.nodup_singleton jid, ?_⟩
    intro a ha hb
    simp only [List.mem_singleton] at hb
    subst hb
    exact absurd ((h.mem_erase_iff).mp ha).1 (by simp)
  · rw [if_neg hc]
    rw [List.nodup_append]
    refine ⟨h, List.nodup_singleton jid, ?_⟩
    intro a ha hb
    simp only [List.mem_singleton] at hb
    subst hb
    exact hc (contains_iff_mem.mpr ha)

/-- Claim C2 (as amended): every webhook ingestion preserves the
reminder-job invariant, and the cancel-then-rearm discipline keeps the job
store duplicate-free. -/
theorem ingest_preserves_reminder_invariant (st : St) (n : Notification) (q : QueryResult) :
    (reminderInvariant st → reminderInvariant (ingest st n q).1) ∧
    (st.jobs.Nodup → (ingest st n q).1.jobs.Nodup) := by
  unfold ingest
  split
  · exact ⟨id, id⟩
  split
  · exact ⟨id, id⟩
  rename_i vs hvs
  dsimp only
  rcases hA : applyQuery (mkVideoFromFeed n) q with ⟨ok, video⟩
  cases ok
  · exact ⟨id, id⟩
  dsimp only
  split
  · exact ⟨id, id⟩
  split
  · split
    · exact ⟨id, id⟩
    · exact ⟨fun h => h, id⟩
  split
  · rename_i hbc
    split
    · exact ⟨id, id⟩
    rename_i hsched
    have hid : video.video_id = n.video_id := by
      have h0 : (applyQuery (mkVideoFromFeed n) q).2.video_id = n.video_id :=
        applyQuery_video_id (mkVideoFromFeed n) q
      rw [hA] at h0
      exact h0
    have hpend : pendingVideoB video = true := by
      simp only [pendingVideoB, hbc.2, Option.isNone_none, Bool.and_true]
      rw [Option.isSome_iff_ne_none]
      exact hsched
    have hvs1 : ∀ o, List.find? (fun w => (mkVideoFromFeed n).video_id == w.video_id) vs
        = some o →
        ∀ j, j ≠ jobIdOf n.channel_id video.video_id →
          (j ∈ chanKeys n.channel_id (vs.erase o) ↔ j ∈ chanKeys n.channel_id vs) := by
      intro o hfind j hj
      refine mem_chanKeys_erase (fun _ => ?_)
      have ho : n.video_id = o.video_id := by
        have h1 := List.find?_some hfind
        simpa [mkVideoFromFeed] using h1
      rw [← ho, ← hid]
      exact hj
    split
    · -- `scheduler.add_job` refused the id (only possible when the store
      -- already held duplicates); the partially mutated state still
      -- satisfies the invariant.
      rename_i e hadd
      have hmem := schedAddJob_error hadd
      constructor
      · intro hinv
        cases hfind : List.find?
            (fun w => (mkVideoFromFeed n).video_id == w.video_id) vs with
        | none =>
          exact broadcast_insert_preserves st n.channel_id vs vs video _ hvs hpend
            (fun j hj => Iff.rfl) hmem (fun j hj => mem_cancel_iff hj) hinv
        | some o =>
          exact broadcast_insert_preserves st n.channel_id vs (vs.erase o) video _
            hvs hpend (hvs1 o hfind) hmem (fun j hj => mem_cancel_iff hj) hinv
      · exact fun h => nodup_cancel h
    · rename_i jobs2 hadd
      obtain ⟨hnot, hj2⟩ := schedAddJob_ok hadd
      subst hj2
      constructor
      · intro hinv
        cases hfind : List.find?
            (fun w => (mkVideoFromFeed n).video_id == w.video_id) vs with
        | none =>
          exact broadcast_insert_preserves st n.channel_id vs vs video _ hvs hpend
            (fun j hj => Iff.rfl) (by simp) (fun j hj => mem_rearm_iff hj) hinv
        | some o =>
          exact broadcast_insert_preserves st n.channel_id vs (vs.erase o) video _
            hvs hpend (hvs1 o hfind) (by simp) (fun j hj => mem_rearm_iff hj) hinv
      · intro hnd
        exact nodup_rearm hnd
  · exact ⟨id, id⟩

/-- Witness for C2's amended theorem: one concrete ingestion of a new
broadcast into the sample state keeps the invariant and the duplicate-free
job store. -/
theorem ingest_preserves_reminder_invariant_witness :
    reminderInvariant
        (ingest sampleState
          { video_id := "w", title := "t2", link := "l2", channel_id := "c" }
          (QueryResult.success none (some (some 2000, none)))).1 ∧
      (ingest sampleState
          { video_id := "w", title := "t2", link := "l2", channel_id := "c" }
          (QueryResult.success none (some (some 2000, none)))).1.jobs.Nodup :=
  ⟨(ingest_preserves_reminder_invariant sampleState
      { video_id := "w", title := "t2", link := "l2", channel_id := "c" }
      (QueryResult.success none (some (some 2000, none)))).1 (by decide),
   (ingest_preserves_reminder_invariant sampleState
      { video_id := "w", title := "t2", link := "l2", channel_id := "c" }
      (QueryResult.success none (some (some 2000, none)))).2 (by decide)⟩

theorem tickVideo_video_id (now : Int) (q : String → QueryResult) (c : String) (v : Video) :
    (tickVideo now q c v).1.video_id = v.video_id := by
  unfold tickVideo
  split
  · rfl
  split
  · rcases hA : applyQuery v (q v.video_id) with ⟨ok, v'⟩
    have hv' : v'.video_id = v.video_id := by
      have h0 := applyQuery_video_id v (q v.video_id)
      rw [hA] at h0
      exact h0
    dsimp only
    split
    · exact hv'
    · exact hv'
  · rfl

theorem tickVideo_events (now : Int) (q : String → QueryResult) (c : String) (v : Video) :
    ∀ e ∈ (tickVideo now q c v).2.2,
      e.channel = c ∧ e.event = YoutubeEventType.LIVE ∧
      e.video.video_id = v.video_id ∧
      (∃ a, e.video.actual_start_time = some a ∧ now - a < 10800) ∧
      (tickVideo now q c v).2.1 = true := by
  unfold tickVideo
  split
  · simp
  split
  · rcases hA : applyQuery v (q v.video_id) with ⟨ok, v'⟩
    have hv' : v'.video_id = v.video_id := by
      have h0 := applyQuery_video_id v (q v.video_id)
      rw [hA] at h0
      exact h0
    dsimp only
    split
    · next actual hact =>
      split
      · next hfresh =>
        intro e he
        simp only [List.mem_singleton] at he
        subst he
        exact ⟨rfl, rfl, hv', ⟨actual, hact, hfresh⟩, rfl⟩
      · simp
    · simp
  · simp

theorem tickVideo_events_len (now : Int) (q : String → QueryResult) (c : String) (v : Video) :
    (tickVideo now q c v).2.2.length ≤ 1 := by
  unfold tickVideo
  split
  · simp
  split
  · rcases applyQuery v (q v.video_id) with ⟨ok, v'⟩
    dsimp only
    split
    · split <;> simp
    · simp
  · simp

theorem tickVideo_unflagged_actual {now : Int} {q : String → QueryResult} {c : String}
    {v : Video} (hv : v.actual_start_time = none)
    (h : (tickVideo now q c v).2.1 = false) :
    (tickVideo now q c v).1.actual_start_time = none := by
  unfold tickVideo at h ⊢
  generalize hs : v.scheduled_start_time = s at h ⊢
  cases s with
  | none => simp at h
  | some sched =>
    dsimp only at h ⊢
    by_cases hdue : now - sched > -600
    · rw [if_pos hdue] at h ⊢
      generalize hA : applyQuery v (q v.video_id) = r at h ⊢
      obtain ⟨ok, v'⟩ := r
      dsimp only at h ⊢
      generalize hact : v'.actual_start_time = a at h ⊢
      cases a with
      | some x => simp at h
      | none =>
        dsimp only
        exact hact
    · rw [if_neg hdue] at h ⊢
      exact hv

theorem foldl_erase_sublist (rs l : List Video) :
    (rs.foldl (fun l v => l.erase v) l).Sublist l := by
  induction rs generalizing l with
  | nil => exact List.Sublist.refl l
  | cons r t ih => exact (ih (l.erase r)).trans (List.erase_sublist r l)

theorem not_mem_foldl_erase_self {l : List Video} (hnd : l.Nodup) {rs : List Video}
    {a : Video} (ha : a ∈ rs) : a ∉ rs.foldl (fun l v => l.erase v) l := by
  induction rs generalizing l with
  | nil => cases ha
  | cons r t ih =>
    rcases List.mem_cons.mp ha with rfl | hat
    · intro hm
      have hm' : a ∈ l.erase a := (foldl_erase_sublist t (l.erase a)).subset hm
      exact absurd (hnd.mem_erase_iff.mp hm').1 (by simp)
    · exact ih (hnd.erase r) hat

theorem updated_map_id (now : Int) (q : String → QueryResult) (c : String) (vs : List Video) :
    ((vs.map (tickVideo now q c)).map (fun r => r.1)).map Video.video_id =
      vs.map Video.video_id := by
  rw [List.map_map, List.map_map]
  exact List.map_congr_left (fun v hv => tickVideo_video_id now q c v)

theorem tickChannel_map_id_sublist (now : Int) (q : String → QueryResult) (c : String)
    (vs : List Video) :
    ((tickChannel now q c vs).1.map Video.video_id).Sublist (vs.map Video.video_id) := by
  have h1 : (tickChannel now q c vs).1.Sublist
      ((vs.map (tickVideo now q c)).map (fun r => r.1)) := foldl_erase_sublist _ _
  have h2 := h1.map Video.video_id
  rwa [updated_map_id] at h2

theorem tickChannel_events (now : Int) (q : String → QueryResult) (c : String)
    (vs : List Video) :
    ∀ e ∈ (tickChannel now q c vs).2,
      e.channel = c ∧ e.event = YoutubeEventType.LIVE ∧
      (∃ a, e.video.actual_start_time = some a ∧ now - a < 10800) ∧
      ∃ v ∈ vs, e.video.video_id = v.video_id ∧ (tickVideo now q c v).2.1 = true := by
  intro e he
  obtain ⟨v, hv, he2⟩ : ∃ v ∈ vs, e ∈ (tickVideo now q c v).2.2 := by
    simpa [tickChannel, List.mem_flatMap, List.mem_map] using he
  obtain ⟨h1, h2, h3, h4, h5⟩ := tickVideo_events now q c v e he2
  exact ⟨h1, h2, h4, v, hv, h3, h5⟩

theorem tickChannel_flagged_removed (now : Int) (q : String → QueryResult) (c : String)
    (vs : List Video) (hnd : (vs.map Video.video_id).Nodup)
    {v : Video} (hv : v ∈ vs) (hflag : (tickVideo now q c v).2.1 = true) :
    v.video_id ∉ (tickChannel now q c vs).1.map Video.video_id := by
  intro hmem
  have hup_ids : ((vs.map (tickVideo now q c)).map (fun r => r.1)).map Video.video_id =
      vs.map Video.video_id := updated_map_id now q c vs
  have hids : (((vs.map (tickVideo now q c)).map (fun r => r.1)).map Video.video_id).Nodup := by
    rw [hup_ids]
    exact hnd
  have hupnd : ((vs.map (tickVideo now q c)).map (fun r => r.1)).Nodup := hids.of_map
  have hrem : (tickVideo now q c v).1 ∈
      ((vs.map (tickVideo now q c)).filter (fun r => r.2.1)).map (fun r => r.1) :=
    List.mem_map_of_mem _
      (List.mem_filter.mpr ⟨List.mem_map_of_mem (tickVideo now q c) hv, hflag⟩)
  have hnot : (tickVideo now q c v).1 ∉ (tickChannel now q c vs).1 :=
    not_mem_foldl_erase_self hupnd hrem
  obtain ⟨w, hw, hwid⟩ := List.mem_map.mp hmem
  have hwup : w ∈ (vs.map (tickVideo now q c)).map (fun r => r.1) :=
    (foldl_erase_sublist _ _).subset hw
  have hfvup : (tickVideo now q c v).1 ∈ (vs.map (tickVideo now q c)).map (fun r => r.1) :=
    List.mem_map_of_mem _ (List.mem_map_of_mem (tickVideo now q c) hv)
  have hweq : w = (tickVideo now q c v).1 :=
    List.inj_on_of_nodup_map hids hwup hfvup
      (by rw [hwid, tickVideo_video_id])
  exact hnot (hweq ▸ hw)

theorem tickChannel_kept_actual (now : Int) (q : String → QueryResult) (c : String)
    (vs : List Video) (hnd : (vs.map Video.video_id).Nodup)
    (hact : ∀ v ∈ vs, v.actual_start_time = none) :
    ∀ w ∈ (tickChannel now q c vs).1, w.actual_start_time = none := by
  intro w hw
  have hwup : w ∈ (vs.map (tickVideo now q c)).map (fun r => r.1) :=
    (foldl_erase_sublist _ _).subset hw
  obtain ⟨r, hr, hrw⟩ := List.mem_map.mp hwup
  obtain ⟨v, hv, hvr⟩ := List.mem_map.mp hr
  subst hvr
  by_cases hflag : (tickVideo now q c v).2.1 = true
  · exfalso
    refine tickChannel_flagged_removed now q c vs hnd hv hflag ?_
    have h1 : w.video_id ∈ (tickChannel now q c vs).1.map Video.video_id :=
      List.mem_map_of_mem _ hw
    rw [← hrw] at h1
    rwa [tickVideo_video_id] at h1
  · have hflag' : (tickVideo now q c v).2.1 = false := by
      revert hflag
      cases (tickVideo now q c v).2.1 <;> simp
    have h2 := tickVideo_unflagged_actual (hact v hv) hflag'
    rwa [hrw] at h2

theorem liveFor_append (a b : List YoutubeEvent) (c i : String) :
    liveFor (a ++ b) c i = liveFor a c i ++ liveFor b c i :=
  List.filter_append a b

theorem tickChannel_liveFor_nil_of_ne (now : Int) (q : String → QueryResult)
    (c : String) (vs : List Video) (c' i : String) (h : c ≠ c') :
    liveFor (tickChannel now q c vs).2 c' i = [] := by
  refine List.filter_eq_nil_iff.mpr ?_
  intro e he
  obtain ⟨hc, _, _, _⟩ := tickChannel_events now q c vs e he
  simp [hc, h]

theorem tickChannel_liveFor_nil_of_not_mem (now : Int) (q : String → QueryResult)
    (c : String) (vs : List Video) (c' i : String) (h : i ∉ vs.map Video.video_id) :
    liveFor (tickChannel now q c vs).2 c' i = [] := by
  refine List.filter_eq_nil_iff.mpr ?_
  intro e he
  obtain ⟨_, _, _, v, hv, hid, _⟩ := tickChannel_events now q c vs e he
  have hne : e.video.video_id ≠ i := by
    intro hh
    refine h ?_
    rw [← hh, hid]
    exact List.mem_map_of_mem _ hv
  simp [hne]

theorem tickChannel_liveFor_len (now : Int) (q : String → QueryResult) (c : String)
    (vs : List Video) (hnd : (vs.map Video.video_id).Nodup) (c' i : String) :
    (liveFor (tickChannel now q c vs).2 c' i).length ≤ 1 := by
  induction vs with
  | nil => simp [tickChannel, liveFor]
  | cons v t ih =>
    have hev : (tickChannel now q c (v :: t)).2 =
        (tickVideo now q c v).2.2 ++ (tickChannel now q c t).2 := by
      simp [tickChannel]
    obtain ⟨hvt, hndt⟩ : v.video_id ∉ t.map Video.video_id ∧
        (t.map Video.video_id).Nodup := by
      rw [List.map_cons, List.nodup_cons] at hnd
      exact hnd
    rw [hev, liveFor_append, List.length_append]
    by_cases hvi : v.video_id = i
    · have ht0 : liveFor (tickChannel now q c t).2 c' i = [] := by
        refine tickChannel_liveFor_nil_of_not_mem now q c t c' i ?_
        rw [← hvi]
        exact hvt
      rw [ht0]
      simp only [List.length_nil, Nat.add_zero]
      calc (liveFor (tickVideo now q c v).2.2 c' i).length
          ≤ (tickVideo now q c v).2.2.length := List.length_filter_le _ _
        _ ≤ 1 := tickVideo_events_len now q c v
    · have hh0 : liveFor (tickVideo now q c v).2.2 c' i = [] := by
        refine List.filter_eq_nil_iff.mpr ?_
        intro e he
        obtain ⟨_, _, hid, _, _⟩ := tickVideo_events now q c v e he
        have hne : e.video.video_id ≠ i := by
          rw [hid]
          exact hvi
        simp [hne]
      rw [hh0]
      simpa using ih hndt

theorem tickCL_events (cl : CL) (now : Int) (q : String → QueryResult) :
    ∀ e ∈ (tickCL cl now q).2,
      ∃ p ∈ cl, e.channel = p.1 ∧ e.event = YoutubeEventType.LIVE ∧
        (∃ a, e.video.actual_start_time = some a ∧ now - a < 10800) ∧
        ∃ v ∈ p.2, e.video.video_id = v.video_id ∧ (tickVideo now q p.1 v).2.1 = true := by
  intro e he
  obtain ⟨p, hp, he2⟩ : ∃ p ∈ cl, e ∈ (tickChannel now q p.1 p.2).2 := by
    simpa [tickCL, List.mem_flatMap] using he
  obtain ⟨h1, h2, h3, v, hv, hid, hfl⟩ := tickChannel_events now q p.1 p.2 e he2
  exact ⟨p, hp, h1, h2, h3, v, hv, hid, hfl⟩

theorem mem_pendingIdsCL {cl : CL} {c i : String} :
    i ∈ pendingIdsCL cl c ↔ ∃ p ∈ cl, p.1 = c ∧ ∃ v ∈ p.2, v.video_id = i := by
  simp only [pendingIdsCL, List.mem_flatMap, List.mem_filter, List.mem_map, beq_iff_eq]
  constructor
  · rintro ⟨p, ⟨hp, hpc⟩, v, hv, hvi⟩
    exact ⟨p, hp, hpc, v, hv, hvi⟩
  · rintro ⟨p, hp, hpc, v, hv, hvi⟩
    exact ⟨p, ⟨hp, hpc⟩, v, hv, hvi⟩

theorem pendingIdsCL_mono_tickCL {cl : CL} {now : Int} {q : String → QueryResult}
    {c i : String} (h : i ∈ pendingIdsCL (tickCL cl now q).1 c) :
    i ∈ pendingIdsCL cl c := by
  obtain ⟨p', hp', hpc, v, hv, hvi⟩ := mem_pendingIdsCL.mp h
  obtain ⟨p, hp, hpp⟩ := List.mem_map.mp hp'
  subst hpp
  have hmem : i ∈ p.2.map Video.video_id := by
    have h1 : v.video_id ∈ (tickChannel now q p.1 p.2).1.map Video.video_id :=
      List.mem_map_of_mem _ hv
    rw [hvi] at h1
    exact (tickChannel_map_id_sublist now q p.1 p.2).subset h1
  obtain ⟨w, hw, hwi⟩ := List.mem_map.mp hmem
  exact mem_pendingIdsCL.mpr ⟨p, hp, hpc, w, hw, hwi⟩

theorem tickCL_flagged_removed {cl : CL} {now : Int} {q : String → QueryResult}
    (hwf : WFcl cl) {p : String × List Video} {v : Video}
    (hp : p ∈ cl) (hv : v ∈ p.2) (hflag : (tickVideo now q p.1 v).2.1 = true) :
    v.video_id ∉ pendingIdsCL (tickCL cl now q).1 p.1 := by
  intro hmem
  obtain ⟨p', hp', hpc, w, hw, hwi⟩ := mem_pendingIdsCL.mp hmem
  obtain ⟨p0, hp0, hpp⟩ := List.mem_map.mp hp'
  subst hpp
  have hp0p : p0 = p := List.inj_on_of_nodup_map hwf.1 hp0 hp hpc
  subst hp0p
  have hnd := (hwf.2 p0 hp0).1
  refine tickChannel_flagged_removed now q p0.1 p0.2 hnd hv hflag ?_
  have h1 : w.video_id ∈ (tickChannel now q p0.1 p0.2).1.map Video.video_id :=
    List.mem_map_of_mem _ hw
  rwa [hwi] at h1

theorem WFcl_tickCL {cl : CL} {now : Int} {q : String → QueryResult} (hwf : WFcl cl) :
    WFcl (tickCL cl now q).1 := by
  constructor
  · have hkeys : (tickCL cl now q).1.map Prod.fst = cl.map Prod.fst := by
      simp [tickCL, List.map_map]
    rw [hkeys]
    exact hwf.1
  · intro p' hp'
    obtain ⟨p, hp, hpp⟩ := List.mem_map.mp hp'
    subst hpp
    obtain ⟨hnd, hact⟩ := hwf.2 p hp
    exact ⟨(tickChannel_map_id_sublist now q p.1 p.2).nodup hnd,
      tickChannel_kept_actual now q p.1 p.2 hnd hact⟩

theorem tickCL_liveFor_notkey (t : CL) (now : Int) (q : String → QueryResult)
    (c i : String) (h : c ∉ t.map Prod.fst) :
    liveFor (tickCL t now q).2 c i = [] := by
  refine List.filter_eq_nil_iff.mpr ?_
  intro e he
  obtain ⟨p, hp, hc, _, _, _⟩ := tickCL_events t now q e he
  have hne : e.channel ≠ c := by
    rw [hc]
    intro hh
    exact h (hh ▸ List.mem_map_of_mem Prod.fst hp)
  simp [hne]

theorem tickCL_liveFor_len (now : Int) (q : String → QueryResult) (c i : String) :
    ∀ cl : CL, WFcl cl → (liveFor (tickCL cl now q).2 c i).length ≤ 1 := by
  intro cl
  induction cl with
  | nil =>
    intro _
    simp [tickCL, liveFor]
  | cons p t ih =>
    intro hwf
    have hev : (tickCL (p :: t) now q).2 =
        (tickChannel now q p.1 p.2).2 ++ (tickCL t now q).2 := by
      simp [tickCL]
    rw [hev, liveFor_append, List.length_append]
    have hkeys : p.1 ∉ t.map Prod.fst ∧ (t.map Prod.fst).Nodup := by
      have h0 := hwf.1
      rw [List.map_cons, List.nodup_cons] at h0
      exact h0
    have hwft : WFcl t := ⟨hkeys.2, fun p' hp' => hwf.2 p' (List.mem_cons_of_mem p hp')⟩
    by_cases hc : p.1 = c
    · have ht0 : liveFor (tickCL t now q).2 c i = [] := by
        refine tickCL_liveFor_notkey t now q c i ?_
        rw [← hc]
        exact hkeys.1
      rw [ht0]
      simp only [List.length_nil, Nat.add_zero]
      rw [← hc]
      exact tickChannel_liveFor_len now q p.1 p.2 (hwf.2 p (List.mem_cons_self p t)).1 p.1 i
    · have hh0 : liveFor (tickChannel now q p.1 p.2).2 c i = [] :=
        tickChannel_liveFor_nil_of_ne now q p.1 p.2 c i hc
      rw [hh0]
      simpa using ih hwft

theorem tickCL_live_removed (now : Int) (q : String → QueryResult) (c i : String)
    (cl : CL) (hwf : WFcl cl) (h : liveFor (tickCL cl now q).2 c i ≠ []) :
    i ∈ pendingIdsCL cl c ∧ i ∉ pendingIdsCL (tickCL cl now q).1 c := by
  obtain ⟨e, he, hpred⟩ : ∃ e ∈ (tickCL cl now q).2,
      (e.event == YoutubeEventType.LIVE && e.channel == c &&
        e.video.video_id == i) = true := by
    rcases hne : liveFor (tickCL cl now q).2 c i with _ | ⟨e, es⟩
    · exact absurd hne h
    · have hm : e ∈ (tickCL cl now q).2.filter (fun e =>
          e.event == YoutubeEventType.LIVE && e.channel == c &&
            e.video.video_id == i) := by
        show e ∈ liveFor (tickCL cl now q).2 c i
        rw [hne]
        exact List.mem_cons_self e es
      have h1 := List.mem_of_mem_filter hm
      have h2 := List.of_mem_filter hm
      exact ⟨e, h1, h2⟩
  simp only [Bool.and_eq_true, beq_iff_eq] at hpred
  obtain ⟨⟨hel, hec⟩, hei⟩ := hpred
  obtain ⟨p, hp, hchan, _, _, v, hv, hid, hflag⟩ := tickCL_events cl now q e he
  have hpc : p.1 = c := by
    rw [← hchan]
    exact hec
  constructor
  · refine mem_pendingIdsCL.mpr ⟨p, hp, hpc, v, hv, ?_⟩
    rw [← hid]
    exact hei
  · have hgone := tickCL_flagged_removed hwf hp hv hflag
    rw [hpc] at hgone
    have hiv : i = v.video_id := by
      rw [← hei, hid]
    rw [hiv]
    exact hgone

/-- Across any sequence of ticks, LIVE is emitted at most once per
`(channel, video id)` key, and never for a key that is not pending. -/
theorem live_seq (c i : String) (ticks : List (Int × (String → QueryResult))) :
    ∀ cl : CL, WFcl cl →
      (liveFor (runTicks cl ticks).2 c i).length ≤ 1 ∧
      (i ∉ pendingIdsCL cl c → liveFor (runTicks cl ticks).2 c i = []) := by
  induction ticks with
  | nil =>
    intro cl _
    simp [runTicks, liveFor]
  | cons t rest ih =>
    intro cl hwf
    obtain ⟨now, q⟩ := t
    have hev : (runTicks cl ((now, q) :: rest)).2 =
        (tickCL cl now q).2 ++ (runTicks (tickCL cl now q).1 rest).2 := rfl
    have hwf' : WFcl (tickCL cl now q).1 := WFcl_tickCL hwf
    constructor
    · rw [hev, liveFor_append, List.length_append]
      by_cases h0 : liveFor (tickCL cl now q).2 c i = []
      · rw [h0]
        simpa using (ih (tickCL cl now q).1 hwf').1
      · obtain ⟨hpend, hgone⟩ := tickCL_live_removed now q c i cl hwf h0
        rw [(ih (tickCL cl now q).1 hwf').2 hgone]
        simpa using tickCL_liveFor_len now q c i cl hwf
    · intro hnp
      rw [hev, liveFor_append]
      have h1 : liveFor (tickCL cl now q).2 c i = [] := by
        by_contra h0
        exact hnp (tickCL_live_removed now q c i cl hwf h0).1
      have h2 : liveFor (runTicks (tickCL cl now q).1 rest).2 c i = [] :=
        (ih (tickCL cl now q).1 hwf').2 (fun hm => hnp (pendingIdsCL_mono_tickCL hm))
      rw [h1, h2]
      rfl

/-! ### Claim theorems -/

/-- Claim C6: the verification handshake returns the challenge verbatim iff
(mode = subscribe and the channel is tracked) or (mode = unsubscribe and the
channel is untracked), and in every other case it answers not-found. -/
theorem verify_handshake_accepts_iff (cl : CL) (mode challenge_param channel_id : String) :
    (websubGet cl mode challenge_param channel_id = .challenge challenge_param ↔
      ((mode = "subscribe" ∧ ∃ vs, lookupCL cl channel_id = some vs) ∨
       (mode = "unsubscribe" ∧ lookupCL cl channel_id = none))) ∧
    (¬ ((mode = "subscribe" ∧ ∃ vs, lookupCL cl channel_id = some vs) ∨
        (mode = "unsubscribe" ∧ lookupCL cl channel_id = none)) →
      websubGet cl mode challenge_param channel_id = .notFound) := by
  unfold websubGet
  constructor
  · split
    · next h =>
      simpa [Option.isSome_iff_exists, Option.isNone_iff_eq_none] using h
    · next h =>
      simp only [Option.isSome_iff_exists, Option.isNone_iff_eq_none] at h
      simpa using h
  · intro h
    rw [if_neg]
    simpa [Option.isSome_iff_exists, Option.isNone_iff_eq_none] using h

/-- Witness for C6 at a concrete input: handshake for an untracked channel
in unsubscribe mode is accepted. -/
theorem verify_handshake_accepts_iff_witness :
    websubGet [] "unsubscribe" "challenge-token" "c" = .challenge "challenge-token" :=
  (verify_handshake_accepts_iff [] "unsubscribe" "challenge-token" "c").1.mpr
    (Or.inr ⟨rfl, rfl⟩)

/-- Claim C9: `subscribe` fails with the Conflict error exactly when the
channel is already tracked and otherwise registers an empty pending list;
`unsubscribe` fails with the NotFound error exactly when the channel is not
tracked, and on success with `pop` the tracking entry is gone. -/
theorem subscribe_conflict_unsubscribe_notfound :
    (∀ (st : St) (c : String),
      (subscribe st c = .error "Conflict channel id." ↔
        (lookupCL st.channel_list c).isSome) ∧
      ((lookupCL st.channel_list c).isNone →
        subscribe st c = .ok { st with channel_list := st.channel_list ++ [(c, [])] } ∧
        lookupCL (st.channel_list ++ [(c, [])]) c = some [])) ∧
    (∀ (st : St) (c : String) (pop : Bool),
      (unsubscribe st c pop = .error "Not found." ↔ lookupCL st.channel_list c = none) ∧
      (∀ st', unsubscribe st c true = .ok st' → lookupCL st'.channel_list c = none)) := by
  constructor
  · intro st c
    constructor
    · unfold subscribe
      split
      · next h => simp [h]
      · next h => simp [h]
    · intro h
      rw [Option.isNone_iff_eq_none] at h
      constructor
      · simp [subscribe, h]
      · exact lookupCL_append_self _ _ _ h
  · intro st c pop
    constructor
    · unfold unsubscribe
      split
      · next h => simp [h]
      · next vs h => simp [h]
    · intro st' h
      unfold unsubscribe at h
      split at h
      · exact absurd h (by simp)
      · next vs hvs =>
        simp only [Except.ok.injEq] at h
        subst h
        simpa using lookupCL_filter_out st.channel_list c

/-- Witness for C9: on the empty state, unsubscribing fails with NotFound
and a fresh subscribe succeeds, registering the empty pending list. -/
theorem subscribe_conflict_unsubscribe_notfound_witness :
    unsubscribe bootState "c1" true = .error "Not found." ∧
    subscribe bootState "c1" = .ok { bootState with channel_list := [("c1", [])] } := by
  refine ⟨((subscribe_conflict_unsubscribe_notfound.2 bootState "c1" true).1).mpr (by decide), ?_⟩
  exact ((subscribe_conflict_unsubscribe_notfound.1 bootState "c1").2 (by decide)).1

/-- Claim C5: across any sequence of ticks a LIVE event is emitted at most
once per tracked broadcast; every LIVE emitted by a tick carries an observed
`actualStart` inside the 3-hour freshness window at that tick; a tick that
emits LIVE for a key does so for a pending snapshot and removes it; and
regardless of freshness, every snapshot the tick marks for removal (in
particular one whose re-query reveals `actualStart`) is gone from the
pending set after that tick, so no later tick can re-emit LIVE for it. -/
theorem live_at_most_once :
    (∀ (cl : CL) (ticks : List (Int × (String → QueryResult))) (c i : String),
      WFcl cl → (liveFor (runTicks cl ticks).2 c i).length ≤ 1) ∧
    (∀ (cl : CL) (now : Int) (q : String → QueryResult) (e : YoutubeEvent),
      e ∈ (tickCL cl now q).2 →
      e.event = YoutubeEventType.LIVE ∧
        ∃ a, e.video.actual_start_time = some a ∧ now - a < 10800) ∧
    (∀ (cl : CL) (now : Int) (q : String → QueryResult) (c i : String),
      WFcl cl → liveFor (tickCL cl now q).2 c i ≠ [] →
      i ∈ pendingIdsCL cl c ∧ i ∉ pendingIdsCL (tickCL cl now q).1 c) ∧
    (∀ (cl : CL) (now : Int) (q : String → QueryResult) (p : String × List Video)
      (v : Video),
      WFcl cl → p ∈ cl → v ∈ p.2 → (tickVideo now q p.1 v).2.1 = true →
      v.video_id ∉ pendingIdsCL (tickCL cl now q).1 p.1) := by
  refine ⟨?_, ?_, ?_, ?_⟩
  · intro cl ticks c i hwf
    exact (live_seq c i ticks cl hwf).1
  · intro cl now q e he
    obtain ⟨p, hp, _, h2, h3, _⟩ := tickCL_events cl now q e he
    exact ⟨h2, h3⟩
  · intro cl now q c i hwf h
    exact tickCL_live_removed now q c i cl hwf h
  · intro cl now q p v hwf hp hv hflag
    exact tickCL_flagged_removed hwf hp hv hflag

/-- Witness for C5: one concrete run - the tracked broadcast goes live at
t=1000, the tick at t=1500 observes it - emits LIVE at most once. -/
theorem live_at_most_once_witness :
    (liveFor
        (runTicks [("c", [sampleBroadcast])]
          [(1500, fun _ => QueryResult.success none (some (none, some 1000)))]).2
        "c" "v").length ≤ 1 :=
  live_at_most_once.1 [("c", [sampleBroadcast])]
    [(1500, fun _ => QueryResult.success none (some (none, some 1000)))]
    "c" "v" (by decide)

/-- Claim C8: a notification that resolves to a broadcast with neither
`actualStart` nor `scheduledStart` is dropped as malformed - no event, no
snapshot, no job, state unchanged, success response. -/
theorem malformed_broadcast_dropped (st : St) (n : Notification)
    (sn : Option (String × Option String)) (vs : List Video)
    (hd : n.deleted = false)
    (ht : lookupCL st.channel_list n.channel_id = some vs) :
    ingest st n (QueryResult.success sn (some (none, none))) = (st, [], .response) := by
  unfold ingest
  rw [hd, ht]
  simp only [Bool.false_eq_true, if_false]
  cases sn <;>
    · simp only [applyQuery, mkVideoFromFeed]
      split <;> simp

/-- Witness for C8: on the sample state, a notification for the tracked
channel resolving to a broadcast with no start times changes nothing. -/
theorem malformed_broadcast_dropped_witness :
    ingest sampleState
        { video_id := "w", title := "t2", link := "l2", channel_id := "c" }
        (QueryResult.success none (some (none, none))) = (sampleState, [], .response) :=
  malformed_broadcast_dropped sampleState
    { video_id := "w", title := "t2", link := "l2", channel_id := "c" }
    none [sampleBroadcast] rfl rfl

/-- Claim C7: re-ingesting a notification for an already-pending video whose
title and (re-resolved) scheduled start are unchanged emits nothing, changes
no state, and rearms no job. -/
theorem duplicate_notification_suppressed (st : St) (n : Notification) (q : QueryResult)
    (vs : List Video) (o : Video)
    (hd : n.deleted = false)
    (ht : lookupCL st.channel_list n.channel_id = some vs)
    (hq : (applyQuery (mkVideoFromFeed n) q).1 = true)
    (ho : vs.find? (fun w => n.video_id == w.video_id) = some o)
    (htitle : o.title = (applyQuery (mkVideoFromFeed n) q).2.title)
    (hsched : o.scheduled_start_time = (applyQuery (mkVideoFromFeed n) q).2.scheduled_start_time) :
    ingest st n q = (st, [], .response) := by
  have hsplit : applyQuery (mkVideoFromFeed n) q =
      ((applyQuery (mkVideoFromFeed n) q).1, (applyQuery (mkVideoFromFeed n) q).2) := rfl
  rw [hq] at hsplit
  unfold ingest
  rw [hd]
  simp only [Bool.false_eq_true, if_false]
  rw [ht]
  simp only [mkVideoFromFeed] at ho hsplit htitle hsched ⊢
  rw [ho, hsplit]
  simp [htitle, hsched]

/-- Witness for C7: redelivering the stored pending broadcast's notification
with the same title and schedule to the sample state is a no-op. -/
theorem duplicate_notification_suppressed_witness :
    ingest sampleState
        { video_id := "v", title := "t", link := "l", channel_id := "c" }
        (QueryResult.success none (some (some 1000, none))) = (sampleState, [], .response) :=
  duplicate_notification_suppressed sampleState
    { video_id := "v", title := "t", link := "l", channel_id := "c" }
    (QueryResult.success none (some (some 1000, none)))
    [sampleBroadcast] sampleBroadcast rfl rfl rfl (by decide) rfl rfl

/-- Claim C3 (as amended): when the owning channel is not tracked, the
handler raises `KeyError` at the pending-set lookup, before resolving the
video: nothing is processed, no state changes, and the hub gets an error
response rather than success. -/
theorem ingest_untracked_channel_raises (st : St) (n : Notification) (q : QueryResult)
    (hd : n.deleted = false)
    (ht : lookupCL st.channel_list n.channel_id = none) :
    ingest st n q = (st, [], .exception "KeyError") := by
  unfold ingest
  rw [hd, ht]
  simp

/-- Witness for C3's amended theorem at a concrete input. -/
theorem ingest_untracked_channel_raises_witness :
    ingest bootState strayNotification QueryResult.failure =
      (bootState, [], .exception "KeyError") :=
  ingest_untracked_channel_raises bootState strayNotification QueryResult.failure rfl rfl

/-- Counterexample to claim C3 as stated: for a notification whose owning
channel is untracked, the webhook handler does not return a success
response (it raises `KeyError` before processing the notification). -/
theorem ingest_untracked_channel_no_success :
    (ingest bootState strayNotification QueryResult.failure).2.2 = .exception "KeyError" ∧
    ¬ (ingest bootState strayNotification QueryResult.failure).2.2 = .response := by
  decide

/-- Claim C10: constructing a broadcast-kind `YoutubeEvent` whose video has
no `scheduled_start_time` raises, and every SCHEDULE / REMINDER / LIVE bus
event produced by `send_youtube_event` from a constructed event carries a
present scheduled start. -/
theorem broadcast_event_requires_scheduled_start :
    (∀ (e : YoutubeEventType) (c : String) (v : Video),
      v.scheduled_start_time = none →
      mkYoutubeEvent (some ResourceType.BROADCAST) e c v =
        .error "Missing field(s): scheduled_start_time in video.") ∧
    (∀ (t : Option ResourceType) (e : YoutubeEventType) (c : String) (v : Video)
        (ev : YoutubeEvent) (opts : EventOptions) (k : String) (be : BusEvent),
      mkYoutubeEvent t e c v = .ok ev →
      sendYoutubeEvent opts k ev = .ok (some be) →
      (be.name = "youtube_broadcast_schedule" ∨ be.name = "youtube_broadcast_reminder" ∨
        be.name = "youtube_broadcast_live") →
      ev.video.scheduled_start_time.isSome ∧ be.scheduled_print.isSome) := by
  constructor
  · intro e c v h
    simp [mkYoutubeEvent, h]
  · intro t e c v ev opts k be _ hsend hname
    unfold sendYoutubeEvent at hsend
    split at hsend
    · simp only [Except.ok.injEq, Option.some.injEq] at hsend
      subst hsend
      simp at hname
    · split at hsend
      · split at hsend
        · exact absurd hsend (by simp)
        · split at hsend
          · split at hsend
            · exact absurd hsend (by simp)
            · next sched _ _ _ act _ =>
              simp only [Except.ok.injEq, Option.some.injEq] at hsend
              subst hsend
              simp_all
          · split at hsend
            · next sched _ _ _ =>
              simp only [Except.ok.injEq, Option.some.injEq] at hsend
              subst hsend
              simp_all
            · split at hsend
              · next sched _ _ _ _ =>
                simp only [Except.ok.injEq, Option.some.injEq] at hsend
                subst hsend
                simp_all
              · exact absurd hsend (by simp)
      · exact absurd hsend (by simp)

/-- Witness for C10: a broadcast event with no scheduled time is refused at
construction. -/
theorem broadcast_event_requires_scheduled_start_witness :
    mkYoutubeEvent (some ResourceType.BROADCAST) YoutubeEventType.SCHEDULE "c"
        (mkVideoFromFeed strayNotification) =
      .error "Missing field(s): scheduled_start_time in video." :=
  broadcast_event_requires_scheduled_start.1 YoutubeEventType.SCHEDULE "c"
    (mkVideoFromFeed strayNotification) rfl

/-- Claim C1 (code bug): snapshotting the reachable `sampleState` and then
restoring it at process start does not reproduce the tracked map - the
restore path appends to `channel_list[channel]` in a fresh empty dict and
raises `KeyError`, leaving no channel tracked (and a freshly armed reminder
job behind). -/
theorem restore_round_trip_raises_keyerror :
    dump_state sampleState =
      .ok ([("c", [{ video_id := "v", title := "t", link := "l", type := "BROADCAST",
                     description := "", thumbnail := some "",
                     scheduled_start_time := some 1000,
                     actual_start_time := none }])], []) ∧
    load_state bootState
        [("c", [{ video_id := "v", title := "t", link := "l", type := "BROADCAST",
                  description := "", thumbnail := some "",
                  scheduled_start_time := some 1000,
                  actual_start_time := none }])] []
        (fun _ => QueryResult.failure) =
      ({ channel_list := [], read_list := [], jobs := [jobIdOf "c" "v"] },
       .exception "KeyError") := by
  decide

/-- Counterexample to claim C2 as stated: from the reachable `sampleState`
(where the invariant holds), one tick whose re-query fails removes the
pending snapshot but leaves its reminder job armed, so the invariant no
longer holds after the tick. -/
theorem tick_breaks_reminder_invariant :
    reminderInvariant sampleState ∧
    ¬ reminderInvariant (tick sampleState 500 (fun _ => QueryResult.failure)).1 := by
  constructor
  · decide
  · decide

end Pystargazer
